import Mathlib

/-!
Verification of the yelp_linebot repository (src/demos/app.py) against its
natural-language specification.  The Python source is shallowly embedded:
pure string manipulation is modelled over `List Char`, JSON documents as an
inductive `Json` tree, the stateful loop of `chunk_text` as a fuel-indexed
recursion (`none` = the loop has not finished within the given fuel, so
`(∀ fuel, … = none)` means the Python loop diverges), and code paths that
raise uncaught exceptions return `none`.
-/

namespace YelpBot

/-! ## Chunker (`chunk_text`, app.py lines 50-71) -/

/-- Position of the last newline character in a list, if any.  This models
Python's `s.rfind("\n", 0, maxLen)` applied to the window `s[0:maxLen]`
(the `-1` result is modelled as `none`). -/
def lastNewlinePos : List Char → Option Nat
  | [] => none
  | c :: cs =>
    match lastNewlinePos cs with
    | some p => some (p + 1)
    | none => if c = '\n' then some 0 else none

/-- The split position of one loop iteration of `chunk_text`:
`split_pos = s.rfind("\n", 0, max_len)`, replaced by `max_len` when the
window `s[0:max_len]` holds no newline. -/
def splitPosOf (s : List Char) (maxLen : Nat) : Nat :=
  match lastNewlinePos (s.take maxLen) with
  | some p => p
  | none => maxLen

/-- Fuel-indexed embedding of the `while s:` loop of `chunk_text`
(app.py lines 58-69).  One unit of fuel is one loop iteration; `none`
means the loop did not finish within `fuel` iterations. -/
def chunkTextFuel : Nat → List Char → Nat → Option (List (List Char))
  | 0, _, _ => none
  | fuel + 1, s, maxLen =>
    if s.isEmpty then some []
    else if s.length ≤ maxLen then some [s]
    else
      match chunkTextFuel fuel (s.drop (splitPosOf s maxLen)) maxLen with
      | none => none
      | some rest => some (s.take (splitPosOf s maxLen) :: rest)

/-- String-level `chunk_text(text, max_len)`.  `text.length + 1` units of
fuel are enough for every terminating run, because every productive
iteration removes at least one character; when the Python loop diverges
this returns `none`. -/
def chunk_text (text : String) (maxLen : Nat) : Option (List String) :=
  (chunkTextFuel (text.length + 1) text.data maxLen).map (List.map String.mk)

theorem lastNewlinePos_lt_length : ∀ {l : List Char} {p : Nat},
    lastNewlinePos l = some p → p < l.length := by
  intro l
  induction l with
  | nil => intro p h; simp [lastNewlinePos] at h
  | cons c cs ih =>
    intro p h
    simp only [lastNewlinePos] at h
    cases hcs : lastNewlinePos cs with
    | some q =>
      simp only [hcs] at h
      injection h with h
      have := ih hcs
      simp only [List.length_cons]
      omega
    | none =>
      simp only [hcs] at h
      by_cases hc : c = '\n'
      · rw [if_pos hc] at h
        injection h with h
        simp only [List.length_cons]
        omega
      · rw [if_neg hc] at h
        cases h

theorem splitPosOf_le (s : List Char) (maxLen : Nat) :
    splitPosOf s maxLen ≤ maxLen := by
  unfold splitPosOf
  split
  next p h =>
    have h1 := lastNewlinePos_lt_length h
    have h2 : (s.take maxLen).length ≤ maxLen := by
      rw [List.length_take]
      exact Nat.min_le_left _ _
    omega
  next h => exact Nat.le_refl _

/-- If an iteration makes no progress (split position 0 while the text is
still longer than the window), the loop never finishes, whatever the fuel:
it keeps appending empty chunks to an unchanged remainder. -/
theorem chunkTextFuel_stuck {s : List Char} {maxLen : Nat}
    (hlen : maxLen < s.length) (hsplit : splitPosOf s maxLen = 0) :
    ∀ fuel, chunkTextFuel fuel s maxLen = none := by
  intro fuel
  induction fuel with
  | zero => rfl
  | succ n ih =>
    have hne : s.isEmpty = false := by
      cases s with
      | nil => simp at hlen
      | cons c cs => rfl
    simp only [chunkTextFuel, hne, Bool.false_eq_true, if_false, hsplit,
      List.drop_zero]
    rw [if_neg (by omega), ih]

theorem chunkTextFuel_roundtrip {fuel maxLen : Nat} {s : List Char}
    {cs : List (List Char)} (h : chunkTextFuel fuel s maxLen = some cs) :
    cs.flatten = s ∧ ∀ c ∈ cs, c ≠ [] := by
  induction fuel generalizing s cs with
  | zero => simp [chunkTextFuel] at h
  | succ n ih =>
    simp only [chunkTextFuel] at h
    by_cases hemp : s.isEmpty
    · rw [if_pos hemp] at h
      injection h with h
      have hs : s = [] := by cases s <;> simp_all
      subst hs
      simp [← h]
    · rw [if_neg hemp] at h
      by_cases hle : s.length ≤ maxLen
      · rw [if_pos hle] at h
        injection h with h
        subst h
        refine ⟨by simp, ?_⟩
        intro c hc
        simp only [List.mem_singleton] at hc
        rw [hc]
        intro hnil
        rw [hnil] at hemp
        exact hemp rfl
      · rw [if_neg hle] at h
        cases hrec : chunkTextFuel n (s.drop (splitPosOf s maxLen)) maxLen with
        | none =>
          simp only [hrec] at h
          exact absurd h (by simp)
        | some rest =>
          simp only [hrec] at h
          injection h with h
          subst h
          have hpos : 0 < splitPosOf s maxLen := by
            rcases Nat.eq_zero_or_pos (splitPosOf s maxLen) with h0 | h0
            · exfalso
              rw [h0, List.drop_zero] at hrec
              rw [chunkTextFuel_stuck (by omega) h0 n] at hrec
              cases hrec
            · exact h0
          obtain ⟨hjoin, hmem⟩ := ih hrec
          constructor
          · simp only [List.flatten_cons, hjoin, List.take_append_drop]
          · intro c hc
            rcases List.mem_cons.mp hc with hhd | htl
            · subst hhd
              rw [Ne, List.take_eq_nil_iff]
              push_neg
              constructor
              · omega
              · intro hnil
                rw [hnil] at hle
                simp at hle
            · exact hmem c htl

theorem stringJoin_map_mk (l : List (List Char)) :
    String.join (l.map String.mk) = String.mk l.flatten := by
  have haux : ∀ (l : List (List Char)) (acc : List Char),
      List.foldl (fun r s => r ++ s) (String.mk acc) (l.map String.mk) =
        String.mk (acc ++ l.flatten) := by
    intro l
    induction l with
    | nil => intro acc; simp
    | cons a as ih =>
      intro acc
      have happ : String.mk acc ++ String.mk a = String.mk (acc ++ a) := rfl
      simp only [List.map_cons, List.foldl_cons, happ, ih, List.flatten_cons]
      simp [List.append_assoc]
  have h0 : ("" : String) = String.mk [] := rfl
  simp only [String.join, h0, haux l [], List.nil_append]

/-- *C2.*  Round-trip: whenever `chunk_text(s, maxLen)` (with `maxLen ≥ 1`)
returns, concatenating the returned chunks in order reconstructs `s`
exactly, and every returned chunk is a non-empty string.  (On inputs where
the loop diverges — see the C3 theorem — nothing is returned and the
statement is vacuous.) -/
theorem chunk_roundtrip_nonempty :
    ∀ (text : String) (maxLen : Nat) (css : List String), 1 ≤ maxLen →
      chunk_text text maxLen = some css →
      String.join css = text ∧ ∀ m ∈ css, m ≠ "" := by
  intro text maxLen css _ h
  unfold chunk_text at h
  cases hcs : chunkTextFuel (text.length + 1) text.data maxLen with
  | none =>
    rw [hcs] at h
    exact absurd h (by simp)
  | some cs =>
    rw [hcs] at h
    injection h with h
    subst h
    obtain ⟨hjoin, hne⟩ := chunkTextFuel_roundtrip hcs
    constructor
    · rw [stringJoin_map_mk, hjoin]
    · intro m hm
      rcases List.mem_map.mp hm with ⟨c, hc, hmk⟩
      subst hmk
      intro hcontra
      exact hne c hc (by
        have : (String.mk c).data = ("" : String).data := by rw [hcontra]
        simpa using this)

/-- Witness for C2 at a concrete input: chunking `"ab\ncd"` with
`maxLen = 3` cuts at the newline and the parts concatenate back. -/
theorem chunk_roundtrip_nonempty_witness :
    String.join ["ab", "\ncd"] = "ab\ncd" ∧ ∀ m ∈ ["ab", "\ncd"], m ≠ "" :=
  chunk_roundtrip_nonempty "ab\ncd" 3 ["ab", "\ncd"] (by decide) (by decide)

/-- *C3.*  The claim says `chunk_text` terminates for every input; the code
does not.  On `"\nab"` with `maxLen = 2` the window `"\na"` has its only
newline at position 0, so `split_pos = 0`, the iteration appends the empty
chunk `s[:0]` and leaves `s = s[0:]` unchanged: the loop runs forever.
No amount of fuel makes the embedded loop return. -/
theorem chunk_text_nontermination :
    (∀ fuel, chunkTextFuel fuel ("\nab".data) 2 = none) ∧
      chunk_text "\nab" 2 = none := by
  have hstuck := @chunkTextFuel_stuck ("\nab".data) 2 (by decide) (by decide)
  refine ⟨hstuck, ?_⟩
  unfold chunk_text
  rw [hstuck]
  rfl

/-- *C8 (counterexample).*  The claim says `chunk_text(text, maxLen)` with
`len(text) ≤ maxLen` returns the single-element sequence `[text]`
*including for the empty string*; but for `text = ""` the `while s:` loop
body never runs and the code returns the empty sequence `[]`, not `[""]`. -/
theorem chunk_empty_counterexample :
    chunk_text "" 3500 = some [] ∧
      (some ([] : List String) ≠ some [("" : String)]) := by
  refine ⟨by decide, ?_⟩
  intro h
  injection h with h
  cases h

/-- *C8 (amended).*  For every *non-empty* `text` with
`len(text) ≤ maxLen`, `chunk_text(text, maxLen)` returns the
single-element sequence `[text]`; for the empty string it returns the
empty sequence `[]`. -/
theorem chunk_small_input :
    (∀ (text : String) (maxLen : Nat), text ≠ "" → text.length ≤ maxLen →
        chunk_text text maxLen = some [text]) ∧
      ∀ maxLen : Nat, chunk_text "" maxLen = some [] := by
  constructor
  · intro text maxLen hne hle
    have hdata : text.data ≠ [] := by
      intro hnil
      apply hne
      have heta : text = String.mk text.data := rfl
      rw [heta, hnil]
    have hemp : text.data.isEmpty = false := by
      cases hd : text.data with
      | nil => exact absurd hd hdata
      | cons a as => rfl
    have hlen : text.data.length ≤ maxLen := hle
    have hfuel : chunkTextFuel (text.length + 1) text.data maxLen =
        some [text.data] := by
      simp only [chunkTextFuel, hemp, Bool.false_eq_true, if_false, if_pos hlen]
    unfold chunk_text
    rw [hfuel]
    rfl
  · intro maxLen
    rfl

/-- Witness for C8 (amended) at a concrete input. -/
theorem chunk_small_input_witness :
    chunk_text "hi" 3500 = some ["hi"] :=
  chunk_small_input.1 "hi" 3500 (by decide) (by decide)

theorem chunkTextFuel_bound {fuel maxLen : Nat} {s : List Char}
    {cs : List (List Char)} (h : chunkTextFuel fuel s maxLen = some cs) :
    ∀ c ∈ cs, c.length ≤ maxLen := by
  induction fuel generalizing s cs with
  | zero => simp [chunkTextFuel] at h
  | succ n ih =>
    simp only [chunkTextFuel] at h
    by_cases hemp : s.isEmpty
    · rw [if_pos hemp] at h
      injection h with h
      subst h
      intro c hc
      cases hc
    · rw [if_neg hemp] at h
      by_cases hle : s.length ≤ maxLen
      · rw [if_pos hle] at h
        injection h with h
        subst h
        intro c hc
        simp only [List.mem_singleton] at hc
        rw [hc]
        exact hle
      · rw [if_neg hle] at h
        cases hrec : chunkTextFuel n (s.drop (splitPosOf s maxLen)) maxLen with
        | none =>
          simp only [hrec] at h
          exact absurd h (by simp)
        | some rest =>
          simp only [hrec] at h
          injection h with h
          subst h
          intro c hc
          rcases List.mem_cons.mp hc with hhd | htl
          · subst hhd
            have h1 : (s.take (splitPosOf s maxLen)).length ≤
                splitPosOf s maxLen := by
              rw [List.length_take]
              exact Nat.min_le_left _ _
            have h2 := splitPosOf_le s maxLen
            omega
          · exact ih hrec c htl

/-! ## JSON documents

`resp.json()` hands `call_yelp_chat` an arbitrary parsed JSON tree; the
code then walks it with `dict.get`, key tests and list indexing.  The tree
is modelled by `Json`; numbers carry an `Int` (no numeric operation is
ever performed on them, only truthiness). -/

inductive Json where
  | null
  | bool (b : Bool)
  | num (n : Int)
  | str (s : String)
  | arr (elems : List Json)
  | obj (fields : List (String × Json))

/-- Python truthiness of a JSON value (`if entity["businesses"]:`,
`base_text or …`): `None`, `False`, `0`, `""`, `[]` and `{}` are falsy. -/
def jtruthy : Json → Bool
  | .null => false
  | .bool b => b
  | .num n => n != 0
  | .str s => !s.data.isEmpty
  | .arr xs => !xs.isEmpty
  | .obj fs => !fs.isEmpty

/-- Dictionary lookup, `d.get(k)` (`none` when the key is absent). -/
def jget : List (String × Json) → String → Option Json
  | [], _ => none
  | (k, v) :: rest, key => if k = key then some v else jget rest key

/-! ### `json.dumps(x, indent=2, ensure_ascii=False)`

The code serializes the first business and the whole document with the
standard-library pretty printer; it is reproduced here so that the
composer operates on the very strings the code builds. -/

/-- Lower-case hexadecimal digit, for `\u00XX` escapes. -/
def hexDigit (n : Nat) : Char :=
  if n < 10 then Char.ofNat (48 + n) else Char.ofNat (87 + n)

/-- JSON string escaping with `ensure_ascii=False`: only the quote, the
backslash and control characters below U+0020 are escaped. -/
def escChar (c : Char) : String :=
  if c = '"' then "\\\""
  else if c = '\\' then "\\\\"
  else if c = '\n' then "\\n"
  else if c = '\t' then "\\t"
  else if c = '\r' then "\\r"
  else if c = '\x08' then "\\b"
  else if c = '\x0c' then "\\f"
  else if c.toNat < 32 then
    "\\u00" ++ String.mk [hexDigit (c.toNat / 16), hexDigit (c.toNat % 16)]
  else String.singleton c

def quoteStr (s : String) : String :=
  "\"" ++ String.join (s.data.map escChar) ++ "\""

def indentOf (lvl : Nat) : String :=
  String.mk (List.replicate (2 * lvl) ' ')

mutual

/-- Pretty printer for one JSON value at nesting level `lvl`
(`json.dumps(·, indent=2, ensure_ascii=False)`). -/
def dumpsVal : Nat → Json → String
  | _, .null => "null"
  | _, .bool true => "true"
  | _, .bool false => "false"
  | _, .num n => toString n
  | _, .str s => quoteStr s
  | _, .arr [] => "[]"
  | lvl, .arr (x :: xs) =>
    "[\n" ++ dumpsItems (lvl + 1) x xs ++ "\n" ++ indentOf lvl ++ "]"
  | _, .obj [] => "\x7b\x7d"
  | lvl, .obj (f :: fs) =>
    "\x7b\n" ++ dumpsFields (lvl + 1) f fs ++ "\n" ++ indentOf lvl ++ "\x7d"
termination_by _ j => sizeOf j

/-- Comma-and-newline separated array items, each on its own indented
line. -/
def dumpsItems : Nat → Json → List Json → String
  | lvl, x, [] => indentOf lvl ++ dumpsVal lvl x
  | lvl, x, y :: ys =>
    indentOf lvl ++ dumpsVal lvl x ++ ",\n" ++ dumpsItems lvl y ys
termination_by _ x xs => sizeOf x + sizeOf xs

/-- Comma-and-newline separated object entries `"key": value`. -/
def dumpsFields : Nat → (String × Json) → List (String × Json) → String
  | lvl, (k, v), [] => indentOf lvl ++ quoteStr k ++ ": " ++ dumpsVal lvl v
  | lvl, (k, v), f :: fs =>
    indentOf lvl ++ quoteStr k ++ ": " ++ dumpsVal lvl v ++ ",\n" ++
      dumpsFields lvl f fs
termination_by _ f fs => sizeOf f + sizeOf fs

end

def dumps (j : Json) : String := dumpsVal 0 j

/-- Does the list start with the given pattern?  Models Python's
`str.startswith`. -/
def startsWithChars : List Char → List Char → Bool
  | _, [] => true
  | [], _ :: _ => false
  | c :: cs, p :: ps => c = p && startsWithChars cs ps

/-- Does `pat` occur contiguously inside `l`?  Models Python's membership
test `pat in s` on strings. -/
def containsSeq (l pat : List Char) : Bool :=
  startsWithChars l pat ||
    match l with
    | [] => false
    | _ :: cs => containsSeq cs pat

/-! ## Reply Composer (`call_yelp_chat`, app.py lines 145-180)

Code paths on which the Python raises an uncaught exception (for example
`data.get` on a non-dict, or indexing a non-list `businesses` value) are
modelled as `none`. -/

/-- Lead text: `data.get("response", {}).get("text") or "Yelp returned a
response."` (app.py line 148).  A present but non-dict `response` value
crashes Python's `.get` (`none` here); a truthy non-string `text` crashes
the later string concatenation (`none` here); a falsy or absent `text`
falls back to the fixed string. -/
def baseTextOf : Json → Option String
  | .obj fs =>
    match (jget fs "response").getD (.obj []) with
    | .obj rf =>
      match jget rf "text" with
      | some t =>
        if jtruthy t then
          match t with
          | .str s => some s
          | _ => none
        else some "Yelp returned a response."
      | none => some "Yelp returned a response."
    | _ => none
  | _ => none

/-- The raw value iterated by the extractor loop:
`entities = data.get("entities", [])` (app.py line 156). -/
def entitiesValue : Json → Option Json
  | .obj fs => some ((jget fs "entities").getD (.arr []))
  | _ => none

/-- The `for entity in entities:` loop over a *list* of entities (app.py
lines 157-160).  Outer `none` is a Python crash; `some none` means the
loop finished without finding a business; `some (some b)` is the first
business found.  A non-dict entity follows Python's semantics for
`"businesses" in entity` (substring test on strings, membership on lists,
`TypeError` otherwise), and a truthy non-list `businesses` value follows
Python's `[0]` indexing (first character of a string, `TypeError` or
`KeyError` otherwise). -/
def firstBusinessLoop : List Json → Option (Option Json)
  | [] => some none
  | e :: rest =>
    match e with
    | .obj fs =>
      match jget fs "businesses" with
      | some b =>
        if jtruthy b then
          match b with
          | .arr (x :: _) => some (some x)
          | .str s =>
            match s.data with
            | c :: _ => some (some (.str (String.mk [c])))
            | [] => none
          | _ => none
        else firstBusinessLoop rest
      | none => firstBusinessLoop rest
    | .str s =>
      if containsSeq s.data ("businesses".data) then none
      else firstBusinessLoop rest
    | .arr xs =>
      if xs.any (fun x => match x with | .str s => s = "businesses" | _ => false)
      then none
      else firstBusinessLoop rest
    | _ => none

/-- The whole extraction step applied to the (arbitrary JSON) value at
`entities`: iterating a string visits its 1-character substrings, none of
which can contain `"businesses"`; iterating a dict visits its keys and
crashes on the first key containing `"businesses"` as a substring (the
subsequent `entity["businesses"]` on a string raises); iterating anything
else raises `TypeError`. -/
def firstBusinessOf : Json → Option (Option Json)
  | .arr xs => firstBusinessLoop xs
  | .str _ => some none
  | .obj fs =>
    if fs.any (fun kv => containsSeq kv.1.data ("businesses".data)) then none
    else some none
  | _ => none

def leadSuffix : String :=
  "\n\n(Full raw Yelp JSON logged to yelp.log. Showing first business details below.)"

def bizLabel : String := "First business (full JSON):\n\n"

def noBusinessesHeader : String := "No businesses found in entities.\n\n"

def truncMarkerPreview : String := "\n\n...(truncated JSON preview)..."

/-- Label prepending: `if biz_chunks: biz_chunks[0] = "First business (full
JSON):\n\n" + biz_chunks[0]` (app.py lines 167-168). -/
def labelChunks : List String → List String
  | [] => []
  | c :: cs => (bizLabel ++ c) :: cs

/-- The no-business fallback message (app.py lines 175-178): the whole
pretty-printed document, truncated to 3500 characters with a marker when
longer, behind a fixed notice. -/
def fallbackMessage (data : Json) : String :=
  noBusinessesHeader ++
    (if 3500 < (dumps data).length then
      String.mk ((dumps data).data.take 3500) ++ truncMarkerPreview
    else dumps data)

/-- The Reply Composer: the message-building step of `call_yelp_chat`
(app.py lines 145-180) applied to a parsed document.  `fuel` bounds the
chunker loop iterations (the chunker can diverge, see the C3 theorem). -/
def buildReplyMessages (fuel : Nat) (data : Json) : Option (List String) :=
  match baseTextOf data with
  | none => none
  | some base =>
    match entitiesValue data with
    | none => none
    | some ents =>
      match firstBusinessOf ents with
      | none => none
      | some (some biz) =>
        match chunkTextFuel fuel (dumps biz).data 3500 with
        | none => none
        | some chunks =>
          some ((base ++ leadSuffix) ::
            (labelChunks (chunks.map String.mk)).take 4)
      | some none => some [base ++ leadSuffix, fallbackMessage data]

/-! ## HTTP outcome handling (`call_yelp_chat`, app.py lines 113-131) -/

/-- The observable outcome of `requests.post` (an external collaborator):
either an exception with its message, or a response with a status code, a
body, and the result of `resp.json()` (`none` when the body is not valid
JSON and `json.JSONDecodeError` would be raised). -/
inductive YelpOutcome where
  | exception (msg : String)
  | response (status : Nat) (body : String) (parsed : Option Json)

/-- Body truncation for the non-ok branch (app.py lines 119-121). -/
def truncBody2000 (t : String) : String :=
  if 2000 < t.length then String.mk (t.data.take 2000) ++ "\n...(truncated)..."
  else t

/-- Body truncation for the JSON-decode-failure branch (app.py lines
128-130). -/
def truncBody4000 (t : String) : String :=
  if 4000 < t.length then
    String.mk (t.data.take 4000) ++ "\n\n...(truncated)..."
  else t

/-- `call_yelp_chat` from the HTTP outcome on: exception → error string;
`not resp.ok` (i.e. status ≥ 400) → status + truncated body; JSON decode
failure → truncated raw body; success → the Reply Composer. -/
def call_yelp_chat (fuel : Nat) : YelpOutcome → Option (List String)
  | .exception e => some ["Error calling Yelp API: " ++ e]
  | .response status body parsed =>
    if status < 400 then
      match parsed with
      | none => some [truncBody4000 body]
      | some data => buildReplyMessages fuel data
    else
      some ["Yelp API error " ++ toString status ++ ":\n" ++ truncBody2000 body]

/-! ## Composer theorems -/

theorem buildReplyMessages_shape {fuel : Nat} {data : Json} {out : List String}
    (h : buildReplyMessages fuel data = some out) :
    ∃ base ents, baseTextOf data = some base ∧ entitiesValue data = some ents ∧
      ((∃ biz chunks, firstBusinessOf ents = some (some biz) ∧
          chunkTextFuel fuel (dumps biz).data 3500 = some chunks ∧
          out = (base ++ leadSuffix) ::
            (labelChunks (chunks.map String.mk)).take 4) ∨
        (firstBusinessOf ents = some none ∧
          out = [base ++ leadSuffix, fallbackMessage data])) := by
  unfold buildReplyMessages at h
  cases hb : baseTextOf data with
  | none =>
    simp only [hb] at h
    exact Option.noConfusion h
  | some base =>
    simp only [hb] at h
    cases he : entitiesValue data with
    | none =>
      simp only [he] at h
      exact Option.noConfusion h
    | some ents =>
      simp only [he] at h
      cases hf : firstBusinessOf ents with
      | none =>
        simp only [hf] at h
        exact Option.noConfusion h
      | some fb =>
        simp only [hf] at h
        cases fb with
        | none =>
          injection h with h
          exact ⟨base, ents, rfl, rfl, Or.inr ⟨hf, h.symm⟩⟩
        | some biz =>
          cases hch : chunkTextFuel fuel (dumps biz).data 3500 with
          | none =>
            simp only [hch] at h
            exact Option.noConfusion h
          | some chunks =>
            simp only [hch] at h
            injection h with h
            exact ⟨base, ents, rfl, rfl,
              Or.inl ⟨biz, chunks, hf, hch, h.symm⟩⟩

/-- *C1.*  For every document the Composer returns, the reply sequence has
at most 5 messages: one lead message followed either by the first (at most)
4 labelled business chunks — the cap drops trailing chunks via `take 4` and
never alters a chunk's content — or, when no business is found, by exactly
one fallback message. -/
theorem composer_reply_cap :
    ∀ (fuel : Nat) (data : Json) (out : List String),
      buildReplyMessages fuel data = some out →
      out.length ≤ 5 ∧
      ∃ base ents, baseTextOf data = some base ∧
        entitiesValue data = some ents ∧
        ((∃ biz chunks, firstBusinessOf ents = some (some biz) ∧
            chunkTextFuel fuel (dumps biz).data 3500 = some chunks ∧
            out = (base ++ leadSuffix) ::
              (labelChunks (chunks.map String.mk)).take 4) ∨
          (firstBusinessOf ents = some none ∧
            out = [base ++ leadSuffix, fallbackMessage data])) := by
  intro fuel data out h
  obtain ⟨base, ents, hb, he, hcase⟩ := buildReplyMessages_shape h
  refine ⟨?_, base, ents, hb, he, hcase⟩
  rcases hcase with ⟨biz, chunks, _, _, hout⟩ | ⟨_, hout⟩
  · subst hout
    simp only [List.length_cons, List.length_take]
    have := Nat.min_le_left 4 (labelChunks (chunks.map String.mk)).length
    omega
  · subst hout
    simp

/-- Witness for C1: the composer applied to the empty JSON object (no
business found) yields 2 ≤ 5 messages. -/
theorem composer_reply_cap_witness :
    (["Yelp returned a response." ++ leadSuffix,
        fallbackMessage (Json.obj [])] : List String).length ≤ 5 :=
  (composer_reply_cap 1 (Json.obj [])
    ["Yelp returned a response." ++ leadSuffix, fallbackMessage (Json.obj [])]
    rfl).1

def longA : String := String.mk (List.replicate 3501 'a')

/-- A document whose natural-language summary alone is longer than 3500
characters. -/
def overflowDoc : Json :=
  Json.obj [("response", Json.obj [("text", Json.str longA)])]

/-- *C4 (counterexample).*  Not every outbound message is at most 3500
characters: the lead message is the API's summary text plus a fixed suffix
and is never truncated, so a 3501-character summary yields a lead message
longer than 3500. -/
theorem composer_overflow_counterexample :
    buildReplyMessages 1 overflowDoc =
      some [longA ++ leadSuffix, fallbackMessage overflowDoc] ∧
      3500 < (longA ++ leadSuffix).length := by
  constructor
  · rfl
  · have hdata : (longA ++ leadSuffix).data = longA.data ++ leadSuffix.data :=
      String.data_append _ _
    have h1 : (longA ++ leadSuffix).length =
        longA.data.length + leadSuffix.data.length := by
      show ((longA ++ leadSuffix).data).length = _
      rw [hdata, List.length_append]
    have h2 : longA.data.length = 3501 := by
      show (List.replicate 3501 'a').length = 3501
      rw [List.length_replicate]
    omega

theorem labelChunks_drop_one (l : List String) :
    (labelChunks l).drop 1 = l.drop 1 := by
  cases l <;> rfl

/-- *C4 (amended).*  Every chunk the Chunker hands the Composer is at most
`maxLen` (so at most 3500) characters; hence every composed message from
position 2 on — the unlabelled business chunks — is at most 3500
characters.  The lead message (position 0) and the position-1 message (the
labelled first chunk, or the fallback with its fixed header) carry fixed
prefixes on untruncated text and may exceed 3500. -/
theorem chunk_length_bound :
    (∀ (fuel maxLen : Nat) (s : List Char) (cs : List (List Char)),
        chunkTextFuel fuel s maxLen = some cs → ∀ c ∈ cs, c.length ≤ maxLen) ∧
      ∀ (fuel : Nat) (data : Json) (out : List String),
        buildReplyMessages fuel data = some out →
        ∀ m ∈ out.drop 2, m.length ≤ 3500 := by
  constructor
  · intro fuel maxLen s cs h
    exact chunkTextFuel_bound h
  · intro fuel data out h m hm
    obtain ⟨base, ents, _, _, hcase⟩ := buildReplyMessages_shape h
    rcases hcase with ⟨biz, chunks, _, hch, hout⟩ | ⟨_, hout⟩
    · subst hout
      have hm1 : m ∈ ((labelChunks (chunks.map String.mk)).take 4).drop 1 := hm
      have h43 : (4 : Nat) = 1 + 3 := rfl
      rw [h43, ← List.take_drop] at hm1
      have hm2 := List.mem_of_mem_take hm1
      rw [labelChunks_drop_one] at hm2
      have hm3 := List.mem_of_mem_drop hm2
      rcases List.mem_map.mp hm3 with ⟨c, hc, hmk⟩
      subst hmk
      show c.length ≤ 3500
      exact chunkTextFuel_bound hch c hc
    · subst hout
      simp at hm

/-- Witness for C4 (amended): a concrete chunking obeys the bound and a
concrete composed reply has nothing beyond position 1. -/
theorem chunk_length_bound_witness :
    (∀ c ∈ [['a'], ['b']], c.length ≤ 1) ∧
      ∀ m ∈ (["Yelp returned a response." ++ leadSuffix,
          fallbackMessage (Json.obj [])] : List String).drop 2,
        m.length ≤ 3500 :=
  ⟨chunk_length_bound.1 3 1 ['a', 'b'] [['a'], ['b']] (by decide),
    chunk_length_bound.2 1 (Json.obj [])
      ["Yelp returned a response." ++ leadSuffix, fallbackMessage (Json.obj [])]
      rfl⟩

/-! ## Business Extractor (C5) -/

/-- Well-formedness of one entity as the spec describes them: a JSON
object whose `businesses` field, when present, is a list. -/
def wfEntity : Json → Bool
  | .obj fs =>
    match jget fs "businesses" with
    | some (.arr _) => true
    | none => true
    | some _ => false
  | _ => false

def wfEntities (l : List Json) : Bool := l.all wfEntity

/-- The extractor as the spec words it (refinement target for C5, written
from the spec, not from the code): the first element of the first entity
whose `businesses` list is present and non-empty. -/
def extractFirstBusinessSpec (entities : List Json) : Option Json :=
  entities.findSome? fun e =>
    match e with
    | .obj fs =>
      match jget fs "businesses" with
      | some (.arr (x :: _)) => some x
      | _ => none
    | _ => none

/-- *C5.*  On well-formed entity lists the extractor loop scans in order
and returns exactly the first element of the first non-empty `businesses`
list (`none` when there is none); an absent `entities` key is read as the
empty list; and on `[{businesses: []}, {businesses: [B1, B2]}]` it returns
`B1`. -/
theorem extractor_first_business :
    (∀ l : List Json, wfEntities l = true →
        firstBusinessLoop l = some (extractFirstBusinessSpec l)) ∧
      (∀ fs : List (String × Json), jget fs "entities" = none →
        entitiesValue (Json.obj fs) = some (Json.arr [])) ∧
      firstBusinessLoop
          [Json.obj [("businesses", Json.arr [])],
            Json.obj
              [("businesses", Json.arr [Json.str "B1", Json.str "B2"])]] =
        some (some (Json.str "B1")) := by
  refine ⟨?_, ?_, rfl⟩
  · intro l hwf
    induction l with
    | nil => rfl
    | cons e rest ih =>
      obtain ⟨hwfe, hwfr⟩ : wfEntity e = true ∧ wfEntities rest = true := by
        simpa [wfEntities] using hwf
      cases e with
      | obj fs =>
        cases hgb : jget fs "businesses" with
        | none =>
          have h1 : firstBusinessLoop (Json.obj fs :: rest) =
              firstBusinessLoop rest := by
            simp only [firstBusinessLoop, hgb]
          have h2 : extractFirstBusinessSpec (Json.obj fs :: rest) =
              extractFirstBusinessSpec rest := by
            simp only [extractFirstBusinessSpec, List.findSome?_cons, hgb]
          rw [h1, h2]
          exact ih hwfr
        | some b =>
          cases b with
          | arr xs =>
            cases xs with
            | nil =>
              have h1 : firstBusinessLoop (Json.obj fs :: rest) =
                  firstBusinessLoop rest := by
                simp [firstBusinessLoop, hgb, jtruthy]
              have h2 : extractFirstBusinessSpec (Json.obj fs :: rest) =
                  extractFirstBusinessSpec rest := by
                simp only [extractFirstBusinessSpec, List.findSome?_cons, hgb]
              rw [h1, h2]
              exact ih hwfr
            | cons x xs' =>
              have h1 : firstBusinessLoop (Json.obj fs :: rest) =
                  some (some x) := by
                simp [firstBusinessLoop, hgb, jtruthy]
              have h2 : extractFirstBusinessSpec (Json.obj fs :: rest) =
                  some x := by
                simp only [extractFirstBusinessSpec, List.findSome?_cons, hgb]
              rw [h1, h2]
          | null => simp [wfEntity, hgb] at hwfe
          | bool b => simp [wfEntity, hgb] at hwfe
          | num n => simp [wfEntity, hgb] at hwfe
          | str s => simp [wfEntity, hgb] at hwfe
          | obj fs2 => simp [wfEntity, hgb] at hwfe
      | null => simp [wfEntity] at hwfe
      | bool b => simp [wfEntity] at hwfe
      | num n => simp [wfEntity] at hwfe
      | str s => simp [wfEntity] at hwfe
      | arr xs => simp [wfEntity] at hwfe
  · intro fs h
    simp [entitiesValue, h]

/-- Witness for C5: the two universally quantified parts applied at
concrete inputs. -/
theorem extractor_first_business_witness :
    firstBusinessLoop [Json.obj [("businesses", Json.arr [Json.str "B1"])]] =
        some (extractFirstBusinessSpec
          [Json.obj [("businesses", Json.arr [Json.str "B1"])]]) ∧
      entitiesValue (Json.obj [("response", Json.null)]) =
        some (Json.arr []) :=
  ⟨extractor_first_business.1 _ (by decide),
    extractor_first_business.2.1 _ rfl⟩

/-! ## Search-API failure handling (C7) -/

/-- *C7 (counterexample).*  The claim says every *non-2xx* response yields
a single error string; but the code branches on `resp.ok`, i.e. status
< 400: a 301 response with a JSON body is treated as success and goes
through the Composer, producing 2 messages, not 1. -/
theorem redirect_status_counterexample :
    (call_yelp_chat 1
        (.response 301 "redirect body" (some (Json.obj [])))).map
        List.length = some 2 ∧ (2 : Nat) ≠ 1 :=
  ⟨rfl, by decide⟩

/-- *C7 (amended).*  Every search-API failure is absorbed into a
single-element reply: an exception yields exactly
`["Error calling Yelp API: <message>"]`; a response with status ≥ 400
(`not resp.ok`; 3xx statuses are treated as success) yields exactly one
string carrying the status code and the body truncated to 2000
characters; a JSON-decode failure yields exactly one string carrying the
body truncated to 4000 characters. -/
theorem api_failure_single_reply :
    (∀ (fuel : Nat) (e : String),
        call_yelp_chat fuel (.exception e) =
          some ["Error calling Yelp API: " ++ e]) ∧
      (∀ (fuel status : Nat) (body : String) (parsed : Option Json),
        400 ≤ status →
        call_yelp_chat fuel (.response status body parsed) =
          some ["Yelp API error " ++ toString status ++ ":\n" ++
            truncBody2000 body]) ∧
      ∀ (fuel status : Nat) (body : String), status < 400 →
        call_yelp_chat fuel (.response status body none) =
          some [truncBody4000 body] := by
  refine ⟨fun fuel e => rfl, ?_, ?_⟩
  · intro fuel status body parsed h
    simp only [call_yelp_chat]
    rw [if_neg (by omega)]
  · intro fuel status body h
    simp only [call_yelp_chat]
    rw [if_pos h]

/-- Witness for C7 (amended): a 500 response and a JSON-decode failure at
status 200, each producing its single reply string. -/
theorem api_failure_single_reply_witness :
    call_yelp_chat 1 (.response 500 "oops" none) =
        some ["Yelp API error " ++ toString (500 : Nat) ++ ":\n" ++
          truncBody2000 "oops"] ∧
      call_yelp_chat 1 (.response 200 "not json" none) =
        some [truncBody4000 "not json"] :=
  ⟨api_failure_single_reply.2.1 1 500 "oops" none (by decide),
    api_failure_single_reply.2.2 1 200 "not json" (by decide)⟩

/-! ## Command Dispatcher (`handle_message`, app.py lines 204-256)

`raw_text = event.message.text.strip()` and `text_lower = raw_text.lower()`
are modelled over char lists with an ASCII reading of Python's `strip` and
`lower` (every command involved is ASCII). -/

/-- ASCII whitespace stripped by Python's `str.strip()`: space, `\t`,
`\n`, `\r`, `\x0b`, `\x0c` (by code point). -/
def pySpace (c : Char) : Bool :=
  c.toNat == 32 || c.toNat == 9 || c.toNat == 10 || c.toNat == 13 ||
    c.toNat == 11 || c.toNat == 12

/-- `str.strip()`: drop leading and trailing whitespace. -/
def pyStripL (l : List Char) : List Char :=
  ((l.dropWhile pySpace).reverse.dropWhile pySpace).reverse

def pyStrip (s : String) : String := String.mk (pyStripL s.data)

/-- `str.lower()` character-wise (ASCII; only `A`-`Z` change). -/
def pyLowerL (l : List Char) : List Char := l.map Char.toLower

def pyLower (s : String) : String := String.mk (pyLowerL s.data)

theorem char_toLower_spec (c : Char) :
    (65 ≤ c.toNat ∧ c.toNat ≤ 90 ∧ c.toLower.toNat = c.toNat + 32) ∨
      (¬(c.toNat ≥ 65 ∧ c.toNat ≤ 90) ∧ c.toLower = c) := by
  by_cases h : c.toNat ≥ 65 ∧ c.toNat ≤ 90
  · left
    refine ⟨h.1, h.2, ?_⟩
    have hval : (c.toNat + 32).isValidChar := Or.inl (by omega)
    show (if c.toNat ≥ 65 ∧ c.toNat ≤ 90 then Char.ofNat (c.toNat + 32)
        else c).toNat = c.toNat + 32
    rw [if_pos h]
    show (dite (c.toNat + 32).isValidChar (fun h => Char.ofNatAux _ h)
        (fun _ => _)).toNat = c.toNat + 32
    rw [dif_pos hval]
    rfl
  · right
    refine ⟨h, ?_⟩
    show (if c.toNat ≥ 65 ∧ c.toNat ≤ 90 then Char.ofNat (c.toNat + 32)
        else c) = c
    rw [if_neg h]

theorem pySpace_toLower (c : Char) : pySpace c.toLower = pySpace c := by
  rcases char_toLower_spec c with ⟨h1, h2, h3⟩ | ⟨_, heq⟩
  · have hL : pySpace c.toLower = false := by
      simp only [pySpace, h3, Bool.or_eq_false_iff, beq_eq_false_iff_ne,
        ne_eq]
      omega
    have hR : pySpace c = false := by
      simp only [pySpace, Bool.or_eq_false_iff, beq_eq_false_iff_ne, ne_eq]
      omega
    rw [hL, hR]
  · rw [heq]

theorem toLower_idem (c : Char) : c.toLower.toLower = c.toLower := by
  rcases char_toLower_spec c with ⟨h1, _, h3⟩ | ⟨_, heq⟩
  · rcases char_toLower_spec c.toLower with ⟨_, g2, _⟩ | ⟨_, geq⟩
    · exfalso
      omega
    · exact geq
  · rw [heq]
    exact heq

theorem pyStripL_pyLowerL (l : List Char) :
    pyStripL (pyLowerL l) = pyLowerL (pyStripL l) := by
  have hco : (pySpace ∘ Char.toLower) = pySpace := funext pySpace_toLower
  have hdw : ∀ m : List Char,
      (m.map Char.toLower).dropWhile pySpace =
        (m.dropWhile pySpace).map Char.toLower := by
    intro m
    rw [List.dropWhile_map, hco]
  unfold pyStripL pyLowerL
  rw [hdw, ← List.map_reverse, hdw, ← List.map_reverse]

theorem pyLowerL_idem (l : List Char) :
    pyLowerL (pyLowerL l) = pyLowerL l := by
  unfold pyLowerL
  rw [List.map_map]
  have : (Char.toLower ∘ Char.toLower) = Char.toLower := funext toLower_idem
  rw [this]

theorem startsWithChars_map {f : Char → Char} :
    ∀ {l p : List Char}, startsWithChars l p = true →
      startsWithChars (l.map f) (p.map f) = true := by
  intro l p
  induction p generalizing l with
  | nil =>
    intro _
    cases l <;> rfl
  | cons q qs ih =>
    intro h
    cases l with
    | nil => simp [startsWithChars] at h
    | cons c cs =>
      simp only [startsWithChars, Bool.and_eq_true, decide_eq_true_eq] at h
      obtain ⟨h1, h2⟩ := h
      simp only [List.map_cons, startsWithChars, Bool.and_eq_true,
        decide_eq_true_eq]
      exact ⟨by rw [h1], ih h2⟩

/-- One of the dispatcher's possible actions together with the outbound
text it carries (`ignore` sends nothing). -/
inductive BotAction where
  | yelpUsage (msg : String)
  | yelpForward (query : String)
  | helpReply (msg : String)
  | pingReply (msg : String)
  | echoReply (msg : String)
  | ignore
deriving DecidableEq

inductive ActionKind where
  | yelpUsage
  | yelpForward
  | helpReply
  | pingReply
  | echoReply
  | ignore
deriving DecidableEq

def BotAction.kind : BotAction → ActionKind
  | .yelpUsage _ => .yelpUsage
  | .yelpForward _ => .yelpForward
  | .helpReply _ => .helpReply
  | .pingReply _ => .pingReply
  | .echoReply _ => .echoReply
  | .ignore => .ignore

def helpText : String :=
  "Commands:\n- help: show this help\n- ping: test latency\n- echo <text>: I'll repeat your text\n- /yelp <query>: ask Yelp AI (e.g. /yelp good vegan sushi in SF)"

def pongText : String := "pong 🏓"

def usageText : String :=
  "Usage: /yelp <your question>\nExample: /yelp Best ramen near me"

/-- The command dispatch of `handle_message`: `/yelp` is matched on the
*raw* (stripped, case-preserved) text by bare `startswith`; `help`, `ping`
and `echo ` are matched on the lowercased copy; everything else is
ignored.  `echo`'s payload and `/yelp`'s query keep the original casing. -/
def handle_message (text : String) : BotAction :=
  if startsWithChars (pyStripL text.data) ("/yelp".data) then
    if pyStripL ((pyStripL text.data).drop 5) = [] then
      .yelpUsage usageText
    else
      .yelpForward (String.mk (pyStripL ((pyStripL text.data).drop 5)))
  else if pyLowerL (pyStripL text.data) = "help".data then .helpReply helpText
  else if pyLowerL (pyStripL text.data) = "ping".data then .pingReply pongText
  else if startsWithChars (pyLowerL (pyStripL text.data)) ("echo ".data) then
    .echoReply (String.mk ((pyStripL text.data).drop 5))
  else .ignore

/-- *C6 (counterexample).*  Dispatch is not case-insensitive for `/yelp`:
the raw-text test means `"/YELP hi"` is ignored, while its lowercased
variant `" /yelp hi"` is forwarded — different actions for a text and its
lowercase form. -/
theorem dispatcher_case_counterexample :
    (handle_message "/YELP hi").kind ≠
      (handle_message (pyLower "/YELP hi")).kind := by
  decide

/-- *C6 (amended).*  Dispatch is case-insensitive except for the `/yelp`
command, whose raw-prefix test is case-sensitive: for every inbound text
whose stripped form matches `/yelp` case-sensitively whenever it matches
case-insensitively, the text and its lowercased variant get the same
action kind (payload casing may differ, as `echo` and `/yelp` keep the
original casing); `"HELP"` and `"help"` give identical output,
`"echo Hello World"` echoes `"Hello World"` with casing preserved, and
`"xyz"` is ignored (zero outbound messages). -/
theorem dispatcher_case_insensitive_amended :
    (∀ t : String,
        (startsWithChars (pyLowerL (pyStripL t.data)) ("/yelp".data) = true →
          startsWithChars (pyStripL t.data) ("/yelp".data) = true) →
        (handle_message t).kind = (handle_message (pyLower t)).kind) ∧
      handle_message "HELP" = handle_message "help" ∧
      handle_message "echo Hello World" = BotAction.echoReply "Hello World" ∧
      handle_message "xyz" = BotAction.ignore := by
  refine ⟨?_, by decide, by decide, by decide⟩
  intro t H
  have hdata : (pyLower t).data = pyLowerL t.data := rfl
  have hstrip : pyStripL (pyLower t).data = pyLowerL (pyStripL t.data) := by
    rw [hdata, pyStripL_pyLowerL]
  unfold handle_message
  rw [hstrip, pyLowerL_idem]
  by_cases hA : startsWithChars (pyStripL t.data) ("/yelp".data) = true
  · have hA2 : startsWithChars (pyLowerL (pyStripL t.data))
        ("/yelp".data) = true := by
      have hm := @startsWithChars_map Char.toLower (pyStripL t.data)
        ("/yelp".data) hA
      rwa [show ("/yelp".data).map Char.toLower = "/yelp".data by decide]
        at hm
    rw [if_pos hA, if_pos hA2]
    have hpr : pyStripL ((pyLowerL (pyStripL t.data)).drop 5) =
        pyLowerL (pyStripL ((pyStripL t.data).drop 5)) := by
      unfold pyLowerL
      rw [← List.map_drop]
      exact pyStripL_pyLowerL _
    by_cases hP : pyStripL ((pyStripL t.data).drop 5) = []
    · rw [if_pos hP, if_pos (by rw [hpr, hP]; rfl)]
    · rw [if_neg hP, if_neg (fun hcon => by
        rw [hpr] at hcon
        unfold pyLowerL at hcon
        exact hP (List.map_eq_nil_iff.mp hcon))]
      rfl
  · have hA2 : ¬startsWithChars (pyLowerL (pyStripL t.data))
        ("/yelp".data) = true := fun hly => hA (H hly)
    rw [if_neg hA, if_neg hA2]
    by_cases hH : pyLowerL (pyStripL t.data) = "help".data
    · rw [if_pos hH, if_pos hH]
    · rw [if_neg hH, if_neg hH]
      by_cases hPg : pyLowerL (pyStripL t.data) = "ping".data
      · rw [if_pos hPg, if_pos hPg]
      · rw [if_neg hPg, if_neg hPg]
        by_cases hE : startsWithChars (pyLowerL (pyStripL t.data))
            ("echo ".data) = true
        · rw [if_pos hE, if_pos hE]
          rfl
        · rw [if_neg hE, if_neg hE]

/-- Witness for C6 (amended): `"Ping"` and its lowercased variant get the
same action kind. -/
theorem dispatcher_case_insensitive_witness :
    (handle_message "Ping").kind = (handle_message (pyLower "Ping")).kind :=
  dispatcher_case_insensitive_amended.1 "Ping" (by decide)

/-- *C10 (counterexample).*  Not every text whose stripped form starts
with `/yelp` goes to the *forward* action: the bare `"/yelp"` leaves an
empty query and gets the usage hint instead. -/
theorem yelp_bare_usage_counterexample :
    handle_message "/yelp" = BotAction.yelpUsage usageText ∧
      (BotAction.yelpUsage usageText).kind ≠ ActionKind.yelpForward := by
  exact ⟨by decide, by decide⟩

/-- *C10 (amended).*  `/yelp` is matched by raw prefix without requiring a
separator: every text whose stripped form starts with the exact characters
`/yelp` enters the `/yelp` branch — usage hint when the rest strips to
empty, forward with the stripped rest as query otherwise; in particular
`"/yelpfoo"` is forwarded with query `"foo"`, not ignored. -/
theorem yelp_match_no_separator :
    (∀ t : String, startsWithChars (pyStripL t.data) ("/yelp".data) = true →
        handle_message t =
          (if pyStripL ((pyStripL t.data).drop 5) = [] then
            BotAction.yelpUsage usageText
          else
            BotAction.yelpForward
              (String.mk (pyStripL ((pyStripL t.data).drop 5))))) ∧
      handle_message "/yelpfoo" = BotAction.yelpForward "foo" := by
  constructor
  · intro t h
    unfold handle_message
    rw [if_pos h]
  · decide

/-- Witness for C10 (amended) at a concrete input with a separator. -/
theorem yelp_match_no_separator_witness :
    handle_message "/yelp sushi" =
      (if pyStripL ((pyStripL "/yelp sushi".data).drop 5) = [] then
        BotAction.yelpUsage usageText
      else
        BotAction.yelpForward
          (String.mk (pyStripL ((pyStripL "/yelp sushi".data).drop 5)))) :=
  yelp_match_no_separator.1 "/yelp sushi" (by decide)

/-! ## Outbound `user_context` (C9, app.py lines 96-111)

`float()` is an external collaborator; its outcome on each configured
string is passed in as `parseFloat`. -/

/-- A value stored in the `user_context` dict: the locale string or a
parsed coordinate. -/
inductive UCVal (α : Type) where
  | str (s : String)
  | num (x : α)
deriving DecidableEq

/-- Truthiness of an optional environment string (`os.getenv` returns
`None` or a string; the empty string is falsy). -/
def optTruthy : Option String → Bool
  | none => false
  | some s => !s.data.isEmpty

/-- The `user_context` dict built by app.py lines 100-108: the locale when
truthy; then, when both `lat` and `lon` are truthy, `float(lat)` is
assigned to `latitude` *before* `float(lon)` is attempted, and the
`except ValueError: pass` keeps whatever was already assigned. -/
def buildUserContext {α : Type} (parseFloat : String → Option α)
    (locale lat lon : Option String) : List (String × UCVal α) :=
  (if optTruthy locale then [("locale", UCVal.str (locale.getD ""))]
    else []) ++
    (if optTruthy lat && optTruthy lon then
      match parseFloat (lat.getD "") with
      | none => []
      | some la =>
        match parseFloat (lon.getD "") with
        | none => [("latitude", UCVal.num la)]
        | some lo => [("latitude", UCVal.num la), ("longitude", UCVal.num lo)]
    else [])

/-- `if user_context: req_body["user_context"] = user_context` (app.py
lines 110-111): the dict is included exactly when non-empty. -/
def reqBodyIncludesUserContext {α : Type} (parseFloat : String → Option α)
    (locale lat lon : Option String) : Bool :=
  !(buildUserContext parseFloat locale lat lon).isEmpty

def hasKey {α : Type} (l : List (String × UCVal α)) (k : String) : Bool :=
  l.any (fun p => p.1 == k)

/-- Models the outcome of Python's `float()` on the inputs the C9
counterexample uses: `float("1.5")` succeeds, `float("abc")` raises
`ValueError`. -/
def demoParse : String → Option String :=
  fun s => if s = "1.5" then some s else none

/-- *C9 (counterexample).*  The request *can* carry a latitude without a
longitude: with no locale, `lat = "1.5"` and `lon = "abc"`, the latitude
is assigned before `float("abc")` raises, the exception is swallowed, and
the one-entry dict is truthy, so it is included. -/
theorem user_context_partial_counterexample :
    buildUserContext demoParse none (some "1.5") (some "abc") =
        [("latitude", UCVal.num "1.5")] ∧
      reqBodyIncludesUserContext demoParse none (some "1.5") (some "abc") =
        true ∧
      hasKey (buildUserContext demoParse none (some "1.5") (some "abc"))
        "longitude" = false := by
  exact ⟨rfl, rfl, rfl⟩

/-- *C9 (amended).*  `user_context` is included iff the locale is
configured, or both coordinates are configured and the *latitude* parses
(even if the longitude does not); a longitude never appears without a
latitude, but a latitude appears without a longitude exactly when both
are configured, the latitude parses and the longitude does not. -/
theorem user_context_inclusion {α : Type} (parseFloat : String → Option α)
    (locale lat lon : Option String) :
    (reqBodyIncludesUserContext parseFloat locale lat lon = true ↔
        (optTruthy locale = true ∨
          (optTruthy lat = true ∧ optTruthy lon = true ∧
            (parseFloat (lat.getD "")).isSome = true))) ∧
      (hasKey (buildUserContext parseFloat locale lat lon) "longitude" =
          true →
        hasKey (buildUserContext parseFloat locale lat lon) "latitude" =
          true) ∧
      (hasKey (buildUserContext parseFloat locale lat lon) "latitude" =
          true ↔
        (optTruthy lat = true ∧ optTruthy lon = true ∧
          (parseFloat (lat.getD "")).isSome = true)) := by
  by_cases hl : optTruthy locale = true <;>
    by_cases ha : optTruthy lat = true <;>
      by_cases hb : optTruthy lon = true <;>
        cases hla : parseFloat (lat.getD "") <;>
          cases hlo : parseFloat (lon.getD "") <;>
            simp [reqBodyIncludesUserContext, buildUserContext, hasKey, hl,
              ha, hb, hla, hlo, Bool.not_eq_true] at *

/-- Witness for C9 (amended): a configured locale alone triggers
inclusion. -/
theorem user_context_inclusion_witness :
    reqBodyIncludesUserContext demoParse (some "en_US") none none = true :=
  (user_context_inclusion demoParse (some "en_US") none none).1.mpr
    (Or.inl rfl)

end YelpBot
